import Mathlib

/-!
Verification development for the WinSpector Pro optimization pipeline.

The Python modules under `src/winspector/core` are shallowly embedded as
executable Lean definitions:

* `ai_analyzer.py` — the `_PlanValidator` class (plan safety gate);
* `windows_optimizer.py` — plan execution (`execute_action_plan`,
  `_generate_powershell_script`, `_run_powershell_script`) and
  `create_restore_point`;
* `analyzer.py` — the `run_autonomous_optimization` orchestrator;
* `smart_cleaner.py` — the empty-directory reclamation passes
  (`_process_empty_folder_cleanup`, `_cleanup_empty_dirs`).

Untyped Python values (the AI plan is an arbitrary JSON-shaped object) are
modelled by the inductive type `JVal`; Python dictionaries are association
lists with first-match lookup and replace-or-append assignment, which agrees
with Python dict semantics on duplicate-free key lists.  Exceptions are
modelled with `Except`.
-/

set_option linter.unusedVariables false

/-- A single-quote character, used when rebuilding the PowerShell command
strings and Python error messages from the source. -/
def sqt : String := String.singleton (Char.ofNat 39)

/-- Lowering of a single character as Python `str.lower` does it, restricted
to ASCII letters and the Cyrillic block actually occurring in the program
data (A-Z, А-Я, Ё..Џ).  Other characters are left unchanged. -/
def pyLowerChar (c : Char) : Char :=
  if 65 ≤ c.toNat ∧ c.toNat ≤ 90 then Char.ofNat (c.toNat + 32)
  else if 0x410 ≤ c.toNat ∧ c.toNat ≤ 0x42F then Char.ofNat (c.toNat + 32)
  else if 0x400 ≤ c.toNat ∧ c.toNat ≤ 0x40F then Char.ofNat (c.toNat + 80)
  else c

/-- Python `str.lower`. -/
def pyToLower (s : String) : String := String.mk (s.data.map pyLowerChar)

/-- The whitespace characters stripped by Python `str.strip()`. -/
def isPyWS (c : Char) : Bool :=
  c == ' ' || c == '\t' || c == '\n' || c == '\r' || c.toNat == 11 || c.toNat == 12

/-- Python `str.strip()`. -/
def pyStrip (s : String) : String :=
  String.mk (((s.data.dropWhile isPyWS).reverse.dropWhile isPyWS).reverse)

/-- Helper for substring containment over character lists. -/
def containsAux (needle : List Char) : List Char → Bool
  | [] => needle.isEmpty
  | c :: rest => needle.isPrefixOf (c :: rest) || containsAux needle rest

/-- Python membership test of a substring in a string. -/
def strContainsSub (hay needle : String) : Bool := containsAux needle.data hay.data

/-- Untyped JSON-shaped Python values: the type of the AI plan and of all the
pieces inside it.  Numbers are modelled as integers (no float occurs in the
validated plan data). -/
inductive JVal where
  | jnull
  | jbool (b : Bool)
  | jnum (n : Int)
  | jstr (s : String)
  | jlist (items : List JVal)
  | jdict (entries : List (String × JVal))

/-- Python `type(v).__name__` for `JVal`. -/
def pyTypeName : JVal → String
  | .jnull => "NoneType"
  | .jbool _ => "bool"
  | .jnum _ => "int"
  | .jstr _ => "str"
  | .jlist _ => "list"
  | .jdict _ => "dict"

/-- Python truthiness. -/
def truthy : JVal → Bool
  | .jnull => false
  | .jbool b => b
  | .jnum n => n != 0
  | .jstr s => s != ""
  | .jlist items => !items.isEmpty
  | .jdict entries => !entries.isEmpty

/-- Dictionary lookup (`d[k]` and `d.get(k)`): first matching key. -/
def dictGet : List (String × JVal) → String → Option JVal
  | [], _ => none
  | kv :: rest, k => if kv.1 == k then some kv.2 else dictGet rest k

/-- Dictionary lookup with a default value. -/
def dictGetD (d : List (String × JVal)) (k : String) (dflt : JVal) : JVal :=
  (dictGet d k).getD dflt

/-- Dictionary assignment `d[k] = v`: replaces the first slot carrying `k`, or
appends a new slot (Python insertion-order semantics). -/
def dictSet : List (String × JVal) → String → JVal → List (String × JVal)
  | [], k, v => [(k, v)]
  | kv :: rest, k, v => if kv.1 == k then (k, v) :: rest else kv :: dictSet rest k v

/-- Key-membership test on a dictionary. -/
def hasKey (d : List (String × JVal)) (k : String) : Bool := (dictGet d k).isSome

/-- Lookup on a value expected to be a dict (`none` when the key is absent or
the value is not a dict). -/
def jvalGet (v : JVal) (k : String) : Option JVal :=
  match v with
  | .jdict entries => dictGet entries k
  | _ => none

mutual
/-- Python `repr` of a `JVal` (quote escaping inside strings is not
modelled; no claim depends on it). -/
def pyRepr : JVal → String
  | .jnull => "None"
  | .jbool true => "True"
  | .jbool false => "False"
  | .jnum n => toString n
  | .jstr s => sqt ++ s ++ sqt
  | .jlist items => "[" ++ String.intercalate ", " (pyReprList items) ++ "]"
  | .jdict entries => "\x7b" ++ String.intercalate ", " (pyReprEntries entries) ++ "\x7d"

/-- Python repr of each element of a list. -/
def pyReprList : List JVal → List String
  | [] => []
  | v :: vs => pyRepr v :: pyReprList vs

/-- Python repr of each key/value pair of a dict. -/
def pyReprEntries : List (String × JVal) → List String
  | [] => []
  | (k, v) :: kvs => (sqt ++ k ++ sqt ++ ": " ++ pyRepr v) :: pyReprEntries kvs
end

/-- Python `str()`: the identity on strings, `repr` on everything else. -/
def pyStr : JVal → String
  | .jstr s => s
  | v => pyRepr v

/-- One entry of the optimization_rules list of the knowledge base: a rule dict with a
mandatory `id` and the two fields the validator reads (`safety`,
`relevant_profiles`), both read with `.get`. -/
structure OptRule where
  id : String
  safety : Option String := none
  relevant_profiles : List String := []
deriving DecidableEq

/-- One entry of the cleanup_rules list of the knowledge base: a rule dict with a
mandatory `category_id` and the `safety` field read with `.get`. -/
structure CleanupRule where
  category_id : String
  safety : Option String := none
deriving DecidableEq

/-- Key-overwriting insertion into an association list: Python dict
comprehension semantics (first occurrence keeps its position, later values
overwrite). -/
def insertOverwrite {α : Type} (m : List (String × α)) (k : String) (v : α) :
    List (String × α) :=
  if m.any (fun kv => kv.1 == k) then
    m.map (fun kv => if kv.1 == k then (k, v) else kv)
  else m ++ [(k, v)]

/-- The dict comprehension keying each optimization rule by its lowercased id. -/
def buildOptRuleMap (rules : List OptRule) : List (String × OptRule) :=
  rules.foldl (fun m r => insertOverwrite m (pyToLower r.id) r) []

/-- The dict comprehension keying each cleanup rule by its category id. -/
def buildCleanupRuleMap (rules : List CleanupRule) : List (String × CleanupRule) :=
  rules.foldl (fun m r => insertOverwrite m r.category_id r) []

/-- The state built by `_PlanValidator.__init__`. -/
structure PlanValidator where
  user_profiles : List String
  optimization_rules : List (String × OptRule)
  cleanup_rules : List (String × CleanupRule)
  critical_items : List String
  profile_relevant_items : List String

/-- Constructor of the validator, mirroring how the Python init method reads
the optimization_rules and cleanup_rules entries of the knowledge base and
derives the critical and profile-relevant id sets. -/
def PlanValidator.ofRules (optRules : List OptRule) (cleanupRules : List CleanupRule)
    (userProfiles : List String) : PlanValidator :=
  let ruleMap := buildOptRuleMap optRules
  { user_profiles := userProfiles
    optimization_rules := ruleMap
    cleanup_rules := buildCleanupRuleMap cleanupRules
    critical_items :=
      (ruleMap.filter (fun kv => kv.2.safety == some "critical")).map (fun kv => kv.1)
    profile_relevant_items :=
      (ruleMap.filter (fun kv =>
        kv.2.relevant_profiles.any (fun rp => userProfiles.contains rp))).map
          (fun kv => kv.1) }

/-- Does `dictGet kvs "action"` compare equal (Python `==`) to the string `s`?
Used for the membership test of the action field in the disable/remove list
and for the comparisons of the script generator. -/
def optEqStr (o : Option JVal) (s : String) : Bool :=
  match o with
  | some (.jstr t) => t == s
  | _ => false

/-- The body of the `for action in action_plan` loop of
`_PlanValidator._validate_action_plan`: `true` iff the item is appended to
`safe_actions`. -/
def keepAction (V : PlanValidator) (action : JVal) : Bool :=
  match action with
  | .jdict kvs =>
    if hasKey kvs "type" && hasKey kvs "id" && hasKey kvs "action" then
      let item_id_lower := pyToLower (pyStr (dictGetD kvs "id" .jnull))
      if V.critical_items.contains item_id_lower then false
      else if (optEqStr (dictGet kvs "action") "disable" ||
               optEqStr (dictGet kvs "action") "remove") &&
              V.profile_relevant_items.contains item_id_lower then false
      else true
    else false
  | _ => false

/-- Embedding of the private action-plan validation method. -/
def validate_action_plan (V : PlanValidator) (action_plan : JVal) : Except String JVal :=
  match action_plan with
  | .jlist actions => .ok (.jlist (actions.filter (keepAction V)))
  | v => .error (sqt ++ "action_plan" ++ sqt ++ " должен быть списком, а не " ++
      pyTypeName v ++ ".")

/-- The profiles treated as sensitive by `_validate_cleanup_plan`. -/
def sensitiveProfiles : List String := ["Developer", "ContentCreator", "AudioEngineer"]

/-- Whether any active profile lies in the hard-coded sensitive set. -/
def isSensitiveProfile (user_profiles : List String) : Bool :=
  user_profiles.any (fun p => sensitiveProfiles.contains p)

/-- Lookup of a cleanup rule by category id. -/
def lookupCleanupRule : List (String × CleanupRule) → String → Option CleanupRule
  | [], _ => none
  | kv :: rest, k => if kv.1 == k then some kv.2 else lookupCleanupRule rest k

/-- The body of the `for category_id, decision in cleanup_plan.items()` loop of
`_PlanValidator._validate_cleanup_plan`: `none` when the entry is skipped,
otherwise the entry written to `safe_cleanup_plan`. -/
def processCleanupPair (V : PlanValidator) (category_id : String) (decision : JVal) :
    Option (String × JVal) :=
  match decision with
  | .jdict dkvs =>
    if hasKey dkvs "clean" then
      if truthy (dictGetD dkvs "clean" .jnull) = false then
        some (category_id, .jdict dkvs)
      else
        match lookupCleanupRule V.cleanup_rules category_id with
        | none => none
        | some rule =>
          if rule.safety == some "low" && isSensitiveProfile V.user_profiles then
            some (category_id, .jdict [("clean", .jbool false)])
          else
            some (category_id, .jdict dkvs)
    else none
  | _ => none

/-- Embedding of the private cleanup-plan validation method. -/
def validate_cleanup_plan (V : PlanValidator) (cleanup_plan : JVal) : Except String JVal :=
  match cleanup_plan with
  | .jdict entries =>
    .ok (.jdict (entries.filterMap (fun kv => processCleanupPair V kv.1 kv.2)))
  | v => .error (sqt ++ "cleanup_plan" ++ sqt ++ " должен быть словарем, а не " ++
      pyTypeName v ++ ".")

/-- The error message of the structural check in `_PlanValidator.validate`. -/
def planStructureErr : String :=
  "План должен быть словарем с ключами " ++ sqt ++ "action_plan" ++ sqt ++ " и " ++
    sqt ++ "cleanup_plan" ++ sqt ++ "."

/-- Embedding of the public validate method of the plan validator. -/
def PlanValidator.validate (V : PlanValidator) (plan : JVal) : Except String JVal :=
  match plan with
  | .jdict kvs =>
    if hasKey kvs "action_plan" && hasKey kvs "cleanup_plan" then
      match validate_action_plan V (dictGetD kvs "action_plan" (.jlist [])) with
      | .error e => .error e
      | .ok ap =>
        let kvs1 := dictSet kvs "action_plan" ap
        match validate_cleanup_plan V (dictGetD kvs1 "cleanup_plan" (.jdict [])) with
        | .error e => .error e
        | .ok cp => .ok (.jdict (dictSet kvs1 "cleanup_plan" cp))
    else .error planStructureErr
  | _ => .error planStructureErr

/-- Result of one `subprocess.run` invocation, as the OS facade reports it. -/
structure CmdResult where
  exitCode : Int
  stdout : String
  stderr : String
deriving DecidableEq

/-- Python exceptions that the execution model tracks (attribute/key errors
from malformed plan items, spawn failures); the payload is irrelevant. -/
abbrev PyExc := Unit

/-- Truthiness of `item.get(k)` (`None` is falsy). -/
def truthyOpt (o : Option JVal) : Bool :=
  match o with
  | none => false
  | some v => truthy v

/-- The three script lines generated for `action == "disable" and
target_type == "service"`. -/
def disableServiceLines (item_id : JVal) : List String :=
  [ "# Отключение службы: " ++ pyStr item_id,
    "Stop-Service -Name " ++ sqt ++ pyStr item_id ++ sqt ++ " -Force;",
    "Set-Service -Name " ++ sqt ++ pyStr item_id ++ sqt ++ " -StartupType Disabled;" ]

/-- The `Stop-Service` line alone (named so theorems can speak about it). -/
def stopServiceLine (item_id : JVal) : String :=
  "Stop-Service -Name " ++ sqt ++ pyStr item_id ++ sqt ++ " -Force;"

/-- The two script lines generated for a UWP removal with a
`package_full_name`. -/
def removeAppPfnLines (item_id pfn : JVal) : List String :=
  [ "# Удаление UWP-приложения: " ++ pyStr item_id,
    "Get-AppxPackage -AllUsers -PackageFullName " ++ sqt ++ pyStr pfn ++ sqt ++
      " | Remove-AppxPackage -AllUsers;" ]

/-- The script line generated for a UWP removal without a
`package_full_name`. -/
def removeAppByNameLine (item_id : JVal) : String :=
  "Get-AppxPackage -AllUsers -Name " ++ sqt ++ "*" ++ pyStr item_id ++ "*" ++ sqt ++
    " | Remove-AppxPackage -AllUsers;"

/-- One iteration of the loop in
`WindowsOptimizer._generate_powershell_script`: the lines contributed by one
plan item.  A non-dict item makes the Python loop raise (`item.get` on a
non-dict), modelled as `.error`. -/
def actionItemLines (item : JVal) : Except PyExc (List String) :=
  match item with
  | .jdict kvs =>
    let item_id := dictGet kvs "id"
    let action := dictGet kvs "action"
    let target_type := dictGet kvs "type"
    if !(truthyOpt item_id && truthyOpt action && truthyOpt target_type) then .ok []
    else if optEqStr action "disable" && optEqStr target_type "service" then
      .ok (disableServiceLines (item_id.getD .jnull))
    else if optEqStr action "remove" && optEqStr target_type "uwp_app" then
      let pfn := dictGet kvs "package_full_name"
      if truthyOpt pfn then
        .ok (removeAppPfnLines (item_id.getD .jnull) (pfn.getD .jnull))
      else
        .ok [removeAppByNameLine (item_id.getD .jnull)]
    else .ok []
  | _ => .error ()

/-- The per-item line blocks of the `for item in plan` loop, in order; an
exception from one item aborts the loop. -/
def actionItemLinesList : List JVal → Except PyExc (List (List String))
  | [] => .ok []
  | item :: rest => do
    let ls ← actionItemLines item
    let lss ← actionItemLinesList rest
    return ls :: lss

/-- Embedding of the PowerShell script generator of the optimizer. -/
def generate_powershell_script (plan : List JVal) : Except PyExc (List String) := do
  let liness ← actionItemLinesList plan
  return liness.flatten

/-- The final script text: the SilentlyContinue header joined with the lines. -/
def buildScript (script_lines : List String) : String :=
  "$ErrorActionPreference = \"SilentlyContinue\";\n" ++
    String.intercalate "\n" script_lines

/-- The `summary` dict of `WindowsOptimizer.execute_action_plan`:
`{"disabled_services": [], "removed_apps": [], "errors": []}`.  The two
success lists hold the raw `item["id"]` values. -/
structure DebloatSummary where
  disabled_services : List JVal
  removed_apps : List JVal
  errors : List String

/-- The empty initial summary. -/
def emptySummary : DebloatSummary :=
  { disabled_services := [], removed_apps := [], errors := [] }

/-- Is the item one that the success-report loop counts as a disabled
service (`item.get("action") == "disable" and item.get("type") == "service"`)? -/
def isDisableServiceItem (item : JVal) : Bool :=
  optEqStr (jvalGet item "action") "disable" && optEqStr (jvalGet item "type") "service"

/-- Is the item one that the success-report loop counts as a removed UWP app? -/
def isRemoveAppItem (item : JVal) : Bool :=
  optEqStr (jvalGet item "action") "remove" && optEqStr (jvalGet item "type") "uwp_app"

/-- One iteration of the report loop in `_run_powershell_script` (the
`returncode == 0` branch).  `item["id"]` raises `KeyError` when absent, and
`item.get` raises on a non-dict item. -/
def fillSummaryStep (acc : DebloatSummary) (item : JVal) : Except PyExc DebloatSummary :=
  match item with
  | .jdict kvs =>
    if isDisableServiceItem (.jdict kvs) then
      match dictGet kvs "id" with
      | some idv => .ok { acc with disabled_services := acc.disabled_services ++ [idv] }
      | none => .error ()
    else if isRemoveAppItem (.jdict kvs) then
      match dictGet kvs "id" with
      | some idv => .ok { acc with removed_apps := acc.removed_apps ++ [idv] }
      | none => .error ()
    else .ok acc
  | _ => .error ()

/-- The whole report loop of `_run_powershell_script` on success. -/
def fillSummary (plan : List JVal) : Except PyExc DebloatSummary :=
  plan.foldlM fillSummaryStep emptySummary

/-- The error entry appended on a non-zero exit code. -/
def scriptErrMsg (stderr : String) : String :=
  "Ошибка выполнения скрипта: " ++ pyStrip stderr

/-- Everything observable about one `execute_action_plan` call: its return
value (or the exception it raises), the `(percent, message)` progress calls it
makes, and the scripts it hands to the OS facade, in order. -/
structure ExecResult where
  summary : Except PyExc DebloatSummary
  events : List (Nat × String)
  invocations : List String

/-- The progress messages of the execution stage. -/
def msgNoActions : String := "Оптимизация системных компонентов не требуется."

/-- Message of the `progress_callback(75, ...)` call. -/
def msgRunningScript : String := "Выполнение скрипта оптимизации..."

/-- Message of the `progress_callback(85, ...)` call after the script ran. -/
def msgActionsDone : String := "Оптимизация системных компонентов завершена."

/-- Embedding of the plan executor composed with
`_run_powershell_script`, with the OS facade abstracted as
`runCmd : String → CmdResult` (one PowerShell process per script). -/
def execute_action_plan (runCmd : String → CmdResult) (plan : List JVal) : ExecResult :=
  match generate_powershell_script plan with
  | .error e => { summary := .error e, events := [], invocations := [] }
  | .ok [] =>
    { summary := .ok emptySummary, events := [(85, msgNoActions)], invocations := [] }
  | .ok script_lines =>
    let script := buildScript script_lines
    let result := runCmd script
    if result.exitCode != 0 then
      { summary := .ok { emptySummary with errors := [scriptErrMsg result.stderr] }
        events := [(75, msgRunningScript), (85, msgActionsDone)]
        invocations := [script] }
    else
      match fillSummary plan with
      | .error e =>
        { summary := .error e
          events := [(75, msgRunningScript)]
          invocations := [script] }
      | .ok s =>
        { summary := .ok s
          events := [(75, msgRunningScript), (85, msgActionsDone)]
          invocations := [script] }

/-- The stderr fragments `create_restore_point` recognizes as a hard failure. -/
def restoreFailMsgEn : String := "A new system restore point could not be created"

/-- The Russian fragment checked against the lowercased stderr. -/
def restoreFailMsgRu : String := "не удалось создать"

/-- Embedding of the restore-point creator, with the PowerShell invocation
abstracted to its outcome: `.error` on the input means the spawn itself
raised (e.g. `FileNotFoundError`); `.ok r` is the `subprocess.run` result.
The function raises (returns `.error`) only when the spawn raised or when the
exit code is non-zero and stderr carries one of the recognized failure
messages; any other non-zero exit is logged as a warning and treated as a
possible success. -/
def create_restore_point (spawn : Except PyExc CmdResult) : Except PyExc Unit :=
  match spawn with
  | .error e => .error e
  | .ok result =>
    if result.exitCode == 0 then .ok ()
    else
      let error_output := pyStrip result.stderr
      if strContainsSub error_output restoreFailMsgEn ||
         strContainsSub (pyToLower error_output) restoreFailMsgRu then .error ()
      else .ok ()

/-- Everything observable from one pipeline run: progress callbacks and the
stage-level operations delegated to the modules / OS facade. -/
inductive StageEffect where
  | progress (percent : Nat) (message : String)
  | restorePointCmd
  | profileUser
  | collectData
  | generatePlan
  | cleanupRun
  | runScript (script : String)
  | generateReport
  | spawnReflection
deriving DecidableEq

/-- The outcome of `run_autonomous_optimization`: the report string on
success, the distinct user-cancelled outcome (the Python code returns the
fixed string `"Отменено пользователем."`), or a propagated fatal error. -/
inductive RunOutcome where
  | completed (report : String)
  | cancelled
  | failed
deriving DecidableEq

/-- The environment of one pipeline run: outcomes of the externally
delegated stages (AI service, OS facade, cleaner) and the successive values
returned by the cancellation predicate of the caller.  `aiPlan` is the
validated plan returned by `generate_distillation_plan`. -/
structure OrchEnv where
  restoreSpawn : Except PyExc CmdResult
  cancelPolls : List Bool
  profileResult : Except PyExc (List String)
  collectResult : Except PyExc Unit
  planResult : Except PyExc JVal
  cleanupResult : Except PyExc Unit
  scriptRun : String → CmdResult
  reportResult : Except PyExc String

/-- Value of the cancellation predicate at the i-th stage boundary. -/
def pollCancel (env : OrchEnv) (i : Nat) : Bool := env.cancelPolls.getD i false

/-- Extraction of the action-plan list from the session, read as a list; the
validator guarantees the field of a validated plan is a list. -/
def getActionList (plan : JVal) : List JVal :=
  match jvalGet plan "action_plan" with
  | some (.jlist items) => items
  | _ => []

/-- The effect trace of the action-execution branch of stage 5
(`_step_execute_action_plan`): nothing at all for an empty plan, otherwise
the progress calls and the single script invocation of
`execute_action_plan`. -/
def actionStageTrace (env : OrchEnv) (actionPlan : List JVal) : List StageEffect :=
  if actionPlan.isEmpty then []
  else
    let r := execute_action_plan env.scriptRun actionPlan
    r.events.map (fun pm => .progress pm.1 pm.2) ++ r.invocations.map (fun s => .runScript s)

/-- Did the action-execution branch raise? -/
def actionStageFailed (env : OrchEnv) (actionPlan : List JVal) : Bool :=
  if actionPlan.isEmpty then false
  else
    match (execute_action_plan env.scriptRun actionPlan).summary with
    | .error _ => true
    | .ok _ => false

/-- Embedding of the orchestrator entry point: the ordered stages with
their progress reports, cooperative cancellation polls between stages, and
fatal-error propagation.  The two concurrent tasks of stage 5 (full cleanup and
action-plan execution) are laid out sequentially in the trace; only the
action task emits progress events, so the trace order of percentages is not
affected by the interleaving. -/
def run_autonomous_optimization (env : OrchEnv) : RunOutcome × List StageEffect :=
  let t1 : List StageEffect := [.progress 5 "Создание точки восстановления...", .restorePointCmd]
  match create_restore_point env.restoreSpawn with
  | .error _ => (.failed, t1)
  | .ok _ =>
    let t2 := t1 ++ [.progress 10 "Точка восстановления создана."]
    if pollCancel env 0 then (.cancelled, t2) else
    let t3 := t2 ++ [.progress 15 "Анализ вашего стиля работы...", .profileUser]
    match env.profileResult with
    | .error _ => (.failed, t3)
    | .ok user_profile =>
      let t4 := t3 ++ [.progress 25 ("Обнаружены профили: " ++ String.intercalate ", " user_profile ++ ".")]
      if pollCancel env 1 then (.cancelled, t4) else
      let t5 := t4 ++ [.progress 40 "Сбор данных для ИИ-анализа...", .collectData]
      match env.collectResult with
      | .error _ => (.failed, t5)
      | .ok _ =>
        if pollCancel env 2 then (.cancelled, t5) else
        let t6 := t5 ++ [.progress 55 "ИИ создает персональный план оптимизации...", .generatePlan]
        match env.planResult with
        | .error _ => (.failed, t6)
        | .ok aiPlan =>
          if pollCancel env 3 then (.cancelled, t6) else
          let actionPlan := getActionList aiPlan
          let t7 := t6 ++ [.progress 70 "Применение оптимизаций и очистка системы...", .cleanupRun] ++
            actionStageTrace env actionPlan
          if (match env.cleanupResult with | .error _ => true | .ok _ => false) ||
             actionStageFailed env actionPlan then (.failed, t7)
          else
          if pollCancel env 4 then (.cancelled, t7) else
          let t8 := t7 ++ [.progress 95 "Формирование отчета...", .generateReport]
          match env.reportResult with
          | .error _ => (.failed, t8)
          | .ok final_report =>
            (.completed final_report,
             t8 ++ [.progress 100 "Готово!", .spawnReflection])

/-- The percentages of the progress calls of a trace, in order. -/
def progressPercents (trace : List StageEffect) : List Nat :=
  trace.filterMap (fun e =>
    match e with
    | .progress p _ => some p
    | _ => none)

/-- A filesystem subtree: named files and named directories.  File contents
and sizes are irrelevant to the empty-directory passes. -/
inductive FSTree where
  | file (name : String)
  | dir (name : String) (children : List FSTree)

/-- The name of an entry. -/
def fsName : FSTree → String
  | .file n => n
  | .dir n _ => n

/-- Marker files that do not stop a folder from counting as empty. -/
def IGNORED_FILES_ON_EMPTY_CHECK : List String := ["thumbs.db", "desktop.ini"]

/-- Folder names the cleaner must never remove. -/
def PROTECTED_SYSTEM_FOLDERS : List String :=
  [ "accountpictures", "administrative tools", "application shortcuts",
    "burn", "cd burning", "cookies", "credentials", "cryptneturlcache",
    "devicelds", "dpapimasterkeys", "en-us", "ru-ru", "sendto",
    "start menu", "templates", "windows" ]

/-- Embedding of the effective-emptiness check applied to the current
children of a directory: the lowercased name of every entry is in the ignore list (note the
Python code checks names only, for files and subdirectories alike). -/
def is_dir_effectively_empty (children : List FSTree) : Bool :=
  children.all (fun c => IGNORED_FILES_ON_EMPTY_CHECK.contains (pyToLower (fsName c)))

mutual
/-- The visit `_process_empty_folder_cleanup` pays to one non-root directory
entry during its `os.walk(topdown=False)` traversal: descendants are
processed first (postorder), the protected-name check skips the directory
itself, and an effectively-empty directory is removed (`shutil.rmtree`)
together with whatever it still contains.  Returns the surviving entry (or
`none` if removed) and the count of removed directories. -/
def sweepEntry : FSTree → Option FSTree × Nat
  | .file n => (some (.file n), 0)
  | .dir n cs =>
    let r := sweepChildren cs
    if PROTECTED_SYSTEM_FOLDERS.contains (pyToLower n) then (some (.dir n r.1), r.2)
    else if is_dir_effectively_empty r.1 then (none, r.2 + 1)
    else (some (.dir n r.1), r.2)

/-- Postorder processing of a list of sibling entries. -/
def sweepChildren : List FSTree → List FSTree × Nat
  | [] => ([], 0)
  | t :: ts =>
    let r1 := sweepEntry t
    let r2 := sweepChildren ts
    (match r1.1 with
     | none => r2.1
     | some t2 => t2 :: r2.1, r1.2 + r2.2)
end

/-- Embedding of the session-wide empty-folder pass: walks everything
below the root (the root itself is never deleted) and returns the surviving
tree plus the number of deleted directories. -/
def process_empty_folder_cleanup (root : FSTree) : FSTree × Nat :=
  match root with
  | .file n => (.file n, 0)
  | .dir n cs =>
    let r := sweepChildren cs
    (.dir n r.1, r.2)

/-- Lookup of the node addressed by a name path from this node downwards. -/
def getNode : FSTree → List String → Option FSTree
  | t, [] => some t
  | .dir _ cs, k :: ks =>
    match cs.find? (fun c => fsName c == k) with
    | some c => getNode c ks
    | none => none
  | .file _, _ :: _ => none

/-- Removal of the node addressed by a name path (no-op when absent). -/
def removeNode : FSTree → List String → FSTree
  | t, [] => t
  | .file n, _ :: _ => .file n
  | .dir n cs, [k] => .dir n (cs.filter (fun c => !(fsName c == k)))
  | .dir n cs, k :: k2 :: ks =>
    .dir n (cs.map (fun c => if fsName c == k then removeNode c (k2 :: ks) else c))

/-- Embedding of the per-category empty-directory pass: `fs` is the filesystem tree the
path lives in and `path` addresses the directory to examine.  A directory
with no entries at all is removed (`path.rmdir()` succeeds only on a truly
empty directory) and the walk recurses into the parent.  Mirrors the source:
no protected-folder check is performed here.  The recursion stops at the tree
root (the Python code would climb further up the real filesystem; the claims
only concern directories below a root). -/
def cleanup_empty_dirs (fs : FSTree) (path : List String) : FSTree × Nat :=
  match path with
  | [] => (fs, 0)
  | k :: ks =>
    match getNode fs (k :: ks) with
    | some (.dir _ []) =>
      let fs1 := removeNode fs (k :: ks)
      let r := cleanup_empty_dirs fs1 ((k :: ks).dropLast)
      (r.1, r.2 + 1)
    | _ => (fs, 0)
termination_by path.length
decreasing_by
  simp only [List.length_dropLast, List.length_cons]
  omega

mutual
/-- The number of directory nodes in a tree whose lowercased name is in
`PROTECTED_SYSTEM_FOLDERS`. -/
def protectedDirCount : FSTree → Nat
  | .file _ => 0
  | .dir n cs =>
    (if PROTECTED_SYSTEM_FOLDERS.contains (pyToLower n) then 1 else 0) +
      protectedDirCountList cs

/-- Sum of `protectedDirCount` over a list of entries. -/
def protectedDirCountList : List FSTree → Nat
  | [] => 0
  | t :: ts => protectedDirCount t + protectedDirCountList ts
end

/-- Protected-directory count through an `Option` (a removed subtree counts 0). -/
def protectedDirCountOpt : Option FSTree → Nat
  | none => 0
  | some t => protectedDirCount t

mutual
/-- No directory in the tree bears a name from the ignorable-marker list
(`thumbs.db`, `desktop.ini`).  Such directory names would make an enclosing
folder count as effectively empty and be bulk-removed with its contents. -/
def noMarkerDirs : FSTree → Bool
  | .file _ => true
  | .dir n cs =>
    !(IGNORED_FILES_ON_EMPTY_CHECK.contains (pyToLower n)) && noMarkerDirsList cs

/-- Marker-free check over a list of entries. -/
def noMarkerDirsList : List FSTree → Bool
  | [] => true
  | t :: ts => noMarkerDirs t && noMarkerDirsList ts
end


theorem dictGet_dictSet_self (d : List (String × JVal)) (k : String) (v : JVal) :
    dictGet (dictSet d k v) k = some v := by
  induction d with
  | nil => simp [dictSet, dictGet]
  | cons kv rest ih =>
    by_cases h : kv.1 = k
    · simp [dictSet, dictGet, h]
    · simp [dictSet, dictGet, h, ih]

theorem dictGet_dictSet_ne (d : List (String × JVal)) (k k' : String) (v : JVal)
    (h : k' ≠ k) : dictGet (dictSet d k v) k' = dictGet d k' := by
  induction d with
  | nil => simp [dictSet, dictGet, Ne.symm h]
  | cons kv rest ih =>
    by_cases hk : kv.1 = k
    · simp [dictSet, dictGet, hk, Ne.symm h]
    · by_cases hk' : kv.1 = k'
      · simp [dictSet, dictGet, hk, hk', h]
      · simp [dictSet, dictGet, hk, hk', ih]

theorem dictSet_of_dictGet (d : List (String × JVal)) (k : String) (v : JVal)
    (h : dictGet d k = some v) : dictSet d k v = d := by
  induction d with
  | nil => simp [dictGet] at h
  | cons kv rest ih =>
    by_cases hk : kv.1 = k
    · simp [dictGet, hk] at h
      cases kv
      simp_all [dictSet]
    · simp [dictGet, hk] at h
      simp [dictSet, hk, ih h]

theorem hasKey_of_dictGet (d : List (String × JVal)) (k : String) (v : JVal)
    (h : dictGet d k = some v) : hasKey d k = true := by
  simp [hasKey, h]

theorem key_ne_plan_fields : ("cleanup_plan" : String) ≠ "action_plan" := by decide

/-- Shape of a successful `validate` call: the input plan with its two fields
replaced by the filtered action list and the rewritten cleanup map. -/
theorem validate_ok_form (V : PlanValidator) (kvs : List (String × JVal)) (acts : List JVal)
    (cps : List (String × JVal))
    (h1 : dictGet kvs "action_plan" = some (.jlist acts))
    (h2 : dictGet kvs "cleanup_plan" = some (.jdict cps)) :
    V.validate (.jdict kvs) = .ok (.jdict (dictSet
      (dictSet kvs "action_plan" (.jlist (acts.filter (keepAction V))))
      "cleanup_plan"
      (.jdict (cps.filterMap (fun kv => processCleanupPair V kv.1 kv.2))))) := by
  have hget2 : dictGet (dictSet kvs "action_plan" (.jlist (acts.filter (keepAction V))))
      "cleanup_plan" = some (.jdict cps) := by
    rw [dictGet_dictSet_ne _ _ _ _ key_ne_plan_fields]
    exact h2
  simp [PlanValidator.validate, hasKey, h1, h2, dictGetD, hget2,
    validate_action_plan, validate_cleanup_plan]

/-- A `validate` call errors when the `action_plan` value is not a list. -/
theorem validate_err_action (V : PlanValidator) (kvs : List (String × JVal)) (v1 v2 : JVal)
    (h1 : dictGet kvs "action_plan" = some v1)
    (h2 : dictGet kvs "cleanup_plan" = some v2)
    (hv : ∀ acts, v1 ≠ .jlist acts) :
    V.validate (.jdict kvs) = .error (sqt ++ "action_plan" ++ sqt ++
      " должен быть списком, а не " ++ pyTypeName v1 ++ ".") := by
  have : validate_action_plan V v1 =
      .error (sqt ++ "action_plan" ++ sqt ++ " должен быть списком, а не " ++
        pyTypeName v1 ++ ".") := by
    cases v1 with
    | jlist acts => exact absurd rfl (hv acts)
    | _ => rfl
  simp [PlanValidator.validate, hasKey, h1, h2, dictGetD, this]

/-- A `validate` call errors when the `cleanup_plan` value is not a dict. -/
theorem validate_err_cleanup (V : PlanValidator) (kvs : List (String × JVal))
    (acts : List JVal) (v2 : JVal)
    (h1 : dictGet kvs "action_plan" = some (.jlist acts))
    (h2 : dictGet kvs "cleanup_plan" = some v2)
    (hv : ∀ cps, v2 ≠ .jdict cps) :
    V.validate (.jdict kvs) = .error (sqt ++ "cleanup_plan" ++ sqt ++
      " должен быть словарем, а не " ++ pyTypeName v2 ++ ".") := by
  have hget2 : dictGet (dictSet kvs "action_plan" (.jlist (acts.filter (keepAction V))))
      "cleanup_plan" = some v2 := by
    rw [dictGet_dictSet_ne _ _ _ _ key_ne_plan_fields]
    exact h2
  have : validate_cleanup_plan V v2 =
      .error (sqt ++ "cleanup_plan" ++ sqt ++ " должен быть словарем, а не " ++
        pyTypeName v2 ++ ".") := by
    cases v2 with
    | jdict cps => exact absurd rfl (hv cps)
    | _ => rfl
  simp [PlanValidator.validate, hasKey, h1, h2, dictGetD, hget2,
    validate_action_plan, this]

/-- Inversion of a successful `validate` call: the input was a dict carrying
an `action_plan` list and a `cleanup_plan` dict. -/
theorem validate_ok_inv (V : PlanValidator) (p q : JVal) (h : V.validate p = .ok q) :
    ∃ kvs acts cps, p = .jdict kvs ∧ dictGet kvs "action_plan" = some (.jlist acts) ∧
      dictGet kvs "cleanup_plan" = some (.jdict cps) := by
  cases p with
  | jdict kvs =>
    cases hv1 : dictGet kvs "action_plan" with
    | none => simp [PlanValidator.validate, hasKey, hv1] at h
    | some v1 =>
      cases hv2 : dictGet kvs "cleanup_plan" with
      | none => simp [PlanValidator.validate, hasKey, hv1, hv2] at h
      | some v2 =>
        cases v1 with
        | jlist acts =>
          cases v2 with
          | jdict cps => exact ⟨kvs, acts, cps, rfl, hv1, hv2⟩
          | jnull =>
            have he := validate_err_cleanup V kvs acts .jnull hv1 hv2 (by intro _ hc; cases hc)
            rw [he] at h; cases h
          | jbool b =>
            have he := validate_err_cleanup V kvs acts (.jbool b) hv1 hv2 (by intro _ hc; cases hc)
            rw [he] at h; cases h
          | jnum n =>
            have he := validate_err_cleanup V kvs acts (.jnum n) hv1 hv2 (by intro _ hc; cases hc)
            rw [he] at h; cases h
          | jstr s =>
            have he := validate_err_cleanup V kvs acts (.jstr s) hv1 hv2 (by intro _ hc; cases hc)
            rw [he] at h; cases h
          | jlist items =>
            have he := validate_err_cleanup V kvs acts (.jlist items) hv1 hv2 (by intro _ hc; cases hc)
            rw [he] at h; cases h
        | jnull =>
          have he := validate_err_action V kvs .jnull v2 hv1 hv2 (by intro _ hc; cases hc)
          rw [he] at h; cases h
        | jbool b =>
          have he := validate_err_action V kvs (.jbool b) v2 hv1 hv2 (by intro _ hc; cases hc)
          rw [he] at h; cases h
        | jnum n =>
          have he := validate_err_action V kvs (.jnum n) v2 hv1 hv2 (by intro _ hc; cases hc)
          rw [he] at h; cases h
        | jstr s =>
          have he := validate_err_action V kvs (.jstr s) v2 hv1 hv2 (by intro _ hc; cases hc)
          rw [he] at h; cases h
        | jdict entries =>
          have he := validate_err_action V kvs (.jdict entries) v2 hv1 hv2 (by intro _ hc; cases hc)
          rw [he] at h; cases h
  | jnull => simp [PlanValidator.validate] at h
  | jbool b => simp [PlanValidator.validate] at h
  | jnum n => simp [PlanValidator.validate] at h
  | jstr s => simp [PlanValidator.validate] at h
  | jlist items => simp [PlanValidator.validate] at h

/-- A kept action item carries an id whose lowercased string form avoids the
critical set. -/
theorem keepAction_not_critical (V : PlanValidator) (item : JVal)
    (h : keepAction V item = true) (idv : JVal) (hid : jvalGet item "id" = some idv) :
    pyToLower (pyStr idv) ∉ V.critical_items := by
  cases item with
  | jdict kvs =>
    simp only [jvalGet] at hid
    have hD : dictGetD kvs "id" .jnull = idv := by simp [dictGetD, hid]
    simp [keepAction] at h
    rw [hD] at h
    exact h.2.1
  | jnull => simp [keepAction] at h
  | jbool b => simp [keepAction] at h
  | jnum n => simp [keepAction] at h
  | jstr s => simp [keepAction] at h
  | jlist l => simp [keepAction] at h

/-- C1: for every plan that `validate` accepts (a dict with both an
`action_plan` list and a `cleanup_plan` dict), no action item of the returned
`action_plan` has an id that, lowercased, belongs to the validator's critical
set: every such item is dropped by `_validate_action_plan`, never kept. -/
theorem c1_validate_excludes_critical (V : PlanValidator) (p q : JVal)
    (items : List JVal) (item idv : JVal)
    (hok : V.validate p = .ok q)
    (hq : jvalGet q "action_plan" = some (.jlist items))
    (hmem : item ∈ items)
    (hid : jvalGet item "id" = some idv) :
    pyToLower (pyStr idv) ∉ V.critical_items := by
  obtain ⟨kvs, acts, cps, rfl, h1, h2⟩ := validate_ok_inv V p q hok
  rw [validate_ok_form V kvs acts cps h1 h2] at hok
  cases hok
  rw [jvalGet, dictGet_dictSet_ne _ _ _ _ (Ne.symm key_ne_plan_fields),
    dictGet_dictSet_self] at hq
  have hitems : items = acts.filter (keepAction V) := by
    injection hq with hq'
    injection hq' with hq''
    exact hq''.symm
  subst hitems
  exact keepAction_not_critical V item (List.of_mem_filter hmem) idv hid

/-- A small knowledge base used by the concrete witnesses: one critical rule,
one profile-relevant rule. -/
def exampleOptRules : List OptRule :=
  [ { id := "CriticalSvc", safety := some "critical" },
    { id := "GameSvc", relevant_profiles := ["Gamer"] } ]

/-- Cleanup rules used by the concrete witnesses. -/
def exampleCleanupRules : List CleanupRule :=
  [ { category_id := "pip_cache", safety := some "low" },
    { category_id := "browser_cache", safety := some "high" } ]

/-- A validator for the `"Developer"` profile over the example rules. -/
def exampleValidator : PlanValidator :=
  PlanValidator.ofRules exampleOptRules exampleCleanupRules ["Developer"]

/-- A safe action item. -/
def exampleActionItem : JVal :=
  .jdict [("type", .jstr "service"), ("id", .jstr "SomeSvc"), ("action", .jstr "disable")]

/-- An action item targeting the critical component. -/
def criticalActionItem : JVal :=
  .jdict [("type", .jstr "service"), ("id", .jstr "CriticalSvc"), ("action", .jstr "disable")]

/-- An example AI plan containing one safe and one critical action, plus two
cleanup decisions. -/
def examplePlan : JVal :=
  .jdict [("action_plan", .jlist [exampleActionItem, criticalActionItem]),
          ("cleanup_plan", .jdict
            [("pip_cache", .jdict [("clean", .jbool true)]),
             ("browser_cache", .jdict [("clean", .jbool true)])])]

/-- What `validate` returns on `examplePlan`: the critical action dropped and
the low-safety cleanup decision suppressed. -/
def examplePlanValidated : JVal :=
  .jdict [("action_plan", .jlist [exampleActionItem]),
          ("cleanup_plan", .jdict
            [("pip_cache", .jdict [("clean", .jbool false)]),
             ("browser_cache", .jdict [("clean", .jbool true)])])]

/-- Witness for C1 at a concrete plan. -/
theorem c1_witness :
    pyToLower (pyStr (.jstr "SomeSvc")) ∉ exampleValidator.critical_items :=
  c1_validate_excludes_critical exampleValidator examplePlan examplePlanValidated
    [exampleActionItem] exampleActionItem (.jstr "SomeSvc") rfl rfl
    (List.mem_singleton.mpr rfl) rfl

theorem filter_keepAction_idem (V : PlanValidator) (l : List JVal) :
    (l.filter (keepAction V)).filter (keepAction V) = l.filter (keepAction V) := by
  rw [List.filter_filter]
  congr 1
  funext a
  exact Bool.and_self _

/-- An entry written by `_validate_cleanup_plan` passes unchanged through a
second pass. -/
theorem processCleanupPair_stable (V : PlanValidator) (cid : String) (d : JVal)
    (cid' : String) (d' : JVal) (h : processCleanupPair V cid d = some (cid', d')) :
    processCleanupPair V cid' d' = some (cid', d') := by
  cases d with
  | jdict dkvs =>
    by_cases hck : hasKey dkvs "clean" = true
    · by_cases htr : truthy (dictGetD dkvs "clean" .jnull) = false
      · simp [processCleanupPair, hck, htr] at h
        obtain ⟨e1, e2⟩ := h
        subst e1
        rw [← e2]
        simp [processCleanupPair, hck, htr]
      · cases hrule : lookupCleanupRule V.cleanup_rules cid with
        | none => simp [processCleanupPair, hck, htr, hrule] at h
        | some rule =>
          by_cases hlow : (rule.safety == some "low" && isSensitiveProfile V.user_profiles) = true
          · simp [processCleanupPair, hck, htr, hrule, hlow] at h
            obtain ⟨e1, e2⟩ := h
            subst e1
            rw [← e2]
            simp [processCleanupPair, hasKey, dictGet, dictGetD, truthy]
          · simp [processCleanupPair, hck, htr, hrule, hlow] at h
            obtain ⟨e1, e2⟩ := h
            subst e1
            rw [← e2]
            simp [processCleanupPair, hck, htr, hrule, hlow]
    · simp [processCleanupPair, hck] at h
  | jnull => simp [processCleanupPair] at h
  | jbool b => simp [processCleanupPair] at h
  | jnum n => simp [processCleanupPair] at h
  | jstr s => simp [processCleanupPair] at h
  | jlist l => simp [processCleanupPair] at h

theorem filterMap_process_idem (V : PlanValidator) (l : List (String × JVal)) :
    (l.filterMap (fun kv => processCleanupPair V kv.1 kv.2)).filterMap
        (fun kv => processCleanupPair V kv.1 kv.2) =
      l.filterMap (fun kv => processCleanupPair V kv.1 kv.2) := by
  induction l with
  | nil => simp
  | cons kv rest ih =>
    cases hp : processCleanupPair V kv.1 kv.2 with
    | none => simp [List.filterMap_cons, hp, ih]
    | some pr =>
      have hs : processCleanupPair V pr.1 pr.2 = some (pr.1, pr.2) := by
        have := processCleanupPair_stable V kv.1 kv.2 pr.1 pr.2 (by rw [hp])
        simpa using this
      simp only [List.filterMap_cons, hp]
      rw [hs]
      simp [ih]

/-- C7: `validate` is idempotent — validating an already-validated plan with
the same rule set and active profiles changes nothing, for both the filtered
`action_plan` and the rewritten `cleanup_plan`. -/
theorem c7_validate_idempotent (V : PlanValidator) (p q : JVal)
    (h : V.validate p = .ok q) : V.validate q = .ok q := by
  obtain ⟨kvs, acts, cps, rfl, h1, h2⟩ := validate_ok_inv V p q h
  rw [validate_ok_form V kvs acts cps h1 h2] at h
  cases h
  have hKa : dictGet (dictSet (dictSet kvs "action_plan"
      (.jlist (acts.filter (keepAction V)))) "cleanup_plan"
      (.jdict (cps.filterMap (fun kv => processCleanupPair V kv.1 kv.2))))
      "action_plan" = some (.jlist (acts.filter (keepAction V))) := by
    rw [dictGet_dictSet_ne _ _ _ _ (Ne.symm key_ne_plan_fields), dictGet_dictSet_self]
  have hKc : dictGet (dictSet (dictSet kvs "action_plan"
      (.jlist (acts.filter (keepAction V)))) "cleanup_plan"
      (.jdict (cps.filterMap (fun kv => processCleanupPair V kv.1 kv.2))))
      "cleanup_plan" =
      some (.jdict (cps.filterMap (fun kv => processCleanupPair V kv.1 kv.2))) := by
    rw [dictGet_dictSet_self]
  rw [validate_ok_form V _ _ _ hKa hKc]
  rw [filter_keepAction_idem, filterMap_process_idem]
  rw [dictSet_of_dictGet _ _ _ hKa, dictSet_of_dictGet _ _ _ hKc]

/-- Witness for C7 at a concrete plan. -/
theorem c7_witness : exampleValidator.validate examplePlanValidated = .ok examplePlanValidated :=
  c7_validate_idempotent exampleValidator examplePlan examplePlanValidated rfl

/-- C8 (amended): `validate` returns normally exactly on the structurally
valid plans — dicts carrying an `action_plan` field holding a list and a
`cleanup_plan` field holding a dict.  In particular it never raises for
data-quality problems inside those two containers, but it does raise when
either field holds a value of the wrong type, even if both fields are
present. -/
theorem c8_validate_raises_iff_structural (V : PlanValidator) (p : JVal) :
    (∃ q, V.validate p = .ok q) ↔
      (∃ kvs acts cps, p = .jdict kvs ∧
        dictGet kvs "action_plan" = some (.jlist acts) ∧
        dictGet kvs "cleanup_plan" = some (.jdict cps)) := by
  constructor
  · rintro ⟨q, h⟩
    exact validate_ok_inv V p q h
  · rintro ⟨kvs, acts, cps, rfl, h1, h2⟩
    exact ⟨_, validate_ok_form V kvs acts cps h1 h2⟩

/-- Counterexample to C8 as stated: a plan that is a dict with both fields
present still raises when the `action_plan` value is not a list. -/
theorem c8_counterexample :
    hasKey [("action_plan", JVal.jnum 0), ("cleanup_plan", JVal.jdict [])] "action_plan" = true ∧
    hasKey [("action_plan", JVal.jnum 0), ("cleanup_plan", JVal.jdict [])] "cleanup_plan" = true ∧
    (PlanValidator.ofRules [] [] []).validate
        (.jdict [("action_plan", .jnum 0), ("cleanup_plan", .jdict [])]) =
      .error (sqt ++ "action_plan" ++ sqt ++ " должен быть списком, а не int.") :=
  ⟨rfl, rfl, rfl⟩

/-- C6: a `{clean: true}` decision on a category whose rule exists with
safety level `low` is, under a sensitive active profile, kept in the
validated cleanup plan with its decision replaced by `{clean: false}` —
suppressed, not dropped. -/
theorem c6_low_safety_suppressed (V : PlanValidator) (kvs cps dkvs : List (String × JVal))
    (q : JVal) (cid : String) (rule : CleanupRule)
    (hok : V.validate (.jdict kvs) = .ok q)
    (h2 : dictGet kvs "cleanup_plan" = some (.jdict cps))
    (hmem : (cid, JVal.jdict dkvs) ∈ cps)
    (hclean : hasKey dkvs "clean" = true)
    (htruthy : truthy (dictGetD dkvs "clean" .jnull) = true)
    (hrule : lookupCleanupRule V.cleanup_rules cid = some rule)
    (hlow : rule.safety = some "low")
    (hsens : isSensitiveProfile V.user_profiles = true) :
    ∃ out, jvalGet q "cleanup_plan" = some (.jdict out) ∧
      (cid, JVal.jdict [("clean", .jbool false)]) ∈ out := by
  obtain ⟨kvs', acts, cps', heq, h1, h2'⟩ := validate_ok_inv V _ q hok
  injection heq with e
  subst e
  rw [h2] at h2'
  injection h2' with h2''
  injection h2'' with h2'''
  subst h2'''
  rw [validate_ok_form V kvs acts cps h1 h2] at hok
  cases hok
  refine ⟨cps.filterMap (fun kv => processCleanupPair V kv.1 kv.2), ?_, ?_⟩
  · rw [jvalGet, dictGet_dictSet_self]
  · apply List.mem_filterMap.mpr
    refine ⟨(cid, .jdict dkvs), hmem, ?_⟩
    simp [processCleanupPair, hclean, htruthy, hrule, hlow, hsens]

/-- Witness for C6 at the concrete example plan: the Low-safety `pip_cache`
decision is suppressed for the `"Developer"` profile. -/
theorem c6_witness :
    ∃ out, jvalGet examplePlanValidated "cleanup_plan" = some (.jdict out) ∧
      ("pip_cache", JVal.jdict [("clean", .jbool false)]) ∈ out :=
  c6_low_safety_suppressed exampleValidator
    [("action_plan", .jlist [exampleActionItem, criticalActionItem]),
     ("cleanup_plan", .jdict
       [("pip_cache", .jdict [("clean", .jbool true)]),
        ("browser_cache", .jdict [("clean", .jbool true)])])]
    [("pip_cache", .jdict [("clean", .jbool true)]),
     ("browser_cache", .jdict [("clean", .jbool true)])]
    [("clean", .jbool true)]
    examplePlanValidated "pip_cache" { category_id := "pip_cache", safety := some "low" }
    rfl rfl (List.mem_cons_self _ _) rfl rfl rfl rfl rfl

/-- Membership through the script-generation loop: anything one item
contributes appears among the blocks. -/
theorem actionItemLinesList_mem (plan : List JVal) (blocks : List (List String))
    (h : actionItemLinesList plan = .ok blocks) (item : JVal) (hmem : item ∈ plan) :
    ∃ b ∈ blocks, actionItemLines item = .ok b := by
  induction plan generalizing blocks with
  | nil => cases hmem
  | cons x xs ih =>
    cases hx : actionItemLines x with
    | error e => simp [actionItemLinesList, hx, bind, Except.bind] at h
    | ok bx =>
      cases hxs : actionItemLinesList xs with
      | error e =>
        simp [actionItemLinesList, hx, hxs, bind, Except.bind, Functor.map, Except.map] at h
      | ok bxs =>
        simp only [actionItemLinesList, hx, hxs, bind, Except.bind, Functor.map,
          Except.map, Except.ok.injEq] at h
        cases h
        cases hmem with
        | head => exact ⟨bx, List.mem_cons_self _ _, hx⟩
        | tail _ hmem' =>
          obtain ⟨b, hb, hfb⟩ := ih bxs hxs hmem'
          exact ⟨b, List.mem_cons_of_mem _ hb, hfb⟩

/-- C4 (amended): the executor consults no service-existence cache or
enumeration — every well-formed disable-service action contributes its
`Stop-Service` command to the batched script, unconditionally on which
services actually exist (PowerShell-level failures are silenced by the
`SilentlyContinue` header). -/
theorem c4_disable_always_scripted (plan : List JVal) (script_lines : List String)
    (item : JVal) (kvs : List (String × JVal)) (idv : JVal)
    (hgen : generate_powershell_script plan = .ok script_lines)
    (hmem : item ∈ plan)
    (hitem : item = .jdict kvs)
    (hid : dictGet kvs "id" = some idv)
    (hidT : truthy idv = true)
    (hact : dictGet kvs "action" = some (.jstr "disable"))
    (htyp : dictGet kvs "type" = some (.jstr "service")) :
    stopServiceLine idv ∈ script_lines := by
  cases hm : actionItemLinesList plan with
  | error e =>
    simp [generate_powershell_script, hm, bind, Except.bind] at hgen
  | ok blocks =>
    have hfl : script_lines = blocks.flatten := by
      simp only [generate_powershell_script, hm, bind, Except.bind, Functor.map,
        Except.map, pure, Except.pure, Except.ok.injEq] at hgen
      exact hgen.symm
    obtain ⟨b, hb, hfb⟩ := actionItemLinesList_mem plan blocks hm item hmem
    subst hitem
    have hlines : actionItemLines (.jdict kvs) = .ok (disableServiceLines idv) := by
      simp [actionItemLines, hid, hact, htyp, truthyOpt, hidT, optEqStr,
        show truthy (JVal.jstr "disable") = true from rfl,
        show truthy (JVal.jstr "service") = true from rfl]
    rw [hlines] at hfb
    injection hfb with hfb'
    subst hfb'
    rw [hfl]
    exact List.mem_flatten.mpr ⟨disableServiceLines idv, hb, by simp [disableServiceLines, stopServiceLine]⟩

/-- A disable action referencing a service that does not exist on the host. -/
def nonexistentServiceItem : JVal :=
  .jdict [("type", .jstr "service"), ("id", .jstr "NoSuchService"), ("action", .jstr "disable")]

/-- Counterexample to C4 as stated: no enumeration of existing services
happens anywhere in `execute_action_plan` (the embedding faithfully takes no
service list), and the OS invocation carrying the `Stop-Service` command for
the nonexistent service is issued regardless. -/
theorem c4_counterexample :
    generate_powershell_script [nonexistentServiceItem] =
      .ok (disableServiceLines (.jstr "NoSuchService")) ∧
    (execute_action_plan (fun _ => ⟨0, "", ""⟩) [nonexistentServiceItem]).invocations =
      [buildScript (disableServiceLines (.jstr "NoSuchService"))] :=
  ⟨rfl, rfl⟩

/-- Witness for the amended C4 statement at the concrete item. -/
theorem c4_witness :
    stopServiceLine (.jstr "NoSuchService") ∈ disableServiceLines (.jstr "NoSuchService") :=
  c4_disable_always_scripted [nonexistentServiceItem]
    (disableServiceLines (.jstr "NoSuchService")) nonexistentServiceItem
    [("type", .jstr "service"), ("id", .jstr "NoSuchService"), ("action", .jstr "disable")]
    (.jstr "NoSuchService") rfl (List.mem_singleton.mpr rfl) rfl rfl rfl rfl rfl

/-- C2 (amended): for every plan whose generated script is non-empty, the
executor issues exactly one OS invocation — the whole batch as a single
PowerShell script — rather than one invocation per item; per-item outcome
capture does not exist at this layer. -/
theorem c2_single_batched_invocation (runCmd : String → CmdResult) (plan : List JVal)
    (script_lines : List String)
    (hgen : generate_powershell_script plan = .ok script_lines)
    (hne : script_lines ≠ []) :
    (execute_action_plan runCmd plan).invocations = [buildScript script_lines] := by
  cases script_lines with
  | nil => exact absurd rfl hne
  | cons l ls =>
    simp only [execute_action_plan, hgen]
    by_cases hexit : (runCmd (buildScript (l :: ls))).exitCode != 0
    · simp [hexit]
    · simp only [hexit, Bool.false_eq_true, if_false]
      cases fillSummary plan <;> simp

/-- An action item removing a UWP app, used by the executor witnesses. -/
def exampleRemoveItem : JVal :=
  .jdict [("type", .jstr "uwp_app"), ("id", .jstr "App1"), ("action", .jstr "remove")]

/-- Counterexample to C2 as stated: a validated plan of two items is executed
through one single OS invocation (the claim requires one invocation per item,
hence two), and the summary has no per-item `completed`/`failed` capture. -/
theorem c2_counterexample :
    ([exampleActionItem, exampleRemoveItem] : List JVal).length = 2 ∧
    (execute_action_plan (fun _ => ⟨0, "", ""⟩)
      [exampleActionItem, exampleRemoveItem]).invocations.length = 1 :=
  ⟨rfl, rfl⟩

/-- Witness for the amended C2 statement at a concrete two-item plan. -/
theorem c2_witness :
    (execute_action_plan (fun _ => ⟨0, "", ""⟩)
        [exampleActionItem, exampleRemoveItem]).invocations =
      [buildScript (disableServiceLines (.jstr "SomeSvc") ++
        [removeAppByNameLine (.jstr "App1")])] :=
  c2_single_batched_invocation (fun _ => ⟨0, "", ""⟩)
    [exampleActionItem, exampleRemoveItem]
    (disableServiceLines (.jstr "SomeSvc") ++ [removeAppByNameLine (.jstr "App1")])
    rfl (by simp [disableServiceLines])


/-- An item the success-report loop can process without raising: a dict
which, when counted as a disabled service or removed app, carries an `id`. -/
def summarySafeItem (item : JVal) : Bool :=
  match item with
  | .jdict kvs =>
    if isDisableServiceItem (.jdict kvs) || isRemoveAppItem (.jdict kvs) then
      hasKey kvs "id"
    else true
  | _ => false

/-- The ids the report loop collects into `disabled_services`. -/
def disabledIds (plan : List JVal) : List JVal :=
  plan.filterMap (fun item =>
    if isDisableServiceItem item then jvalGet item "id" else none)

/-- The ids the report loop collects into `removed_apps`. -/
def removedIds (plan : List JVal) : List JVal :=
  plan.filterMap (fun item =>
    if isRemoveAppItem item then jvalGet item "id" else none)

/-- The two counting predicates of the report loop are mutually exclusive. -/
theorem disable_remove_exclusive (item : JVal) (h : isDisableServiceItem item = true) :
    isRemoveAppItem item = false := by
  simp only [isDisableServiceItem, Bool.and_eq_true] at h
  cases hact : jvalGet item "action" with
  | none => rw [hact] at h; simp [optEqStr] at h
  | some av =>
    rw [hact] at h
    cases av with
    | jstr t =>
      have ht : t = "disable" := by simpa [optEqStr] using h.1
      simp [isRemoveAppItem, hact, optEqStr, ht]
    | jnull => simp [optEqStr] at h
    | jbool b => simp [optEqStr] at h
    | jnum n => simp [optEqStr] at h
    | jlist l => simp [optEqStr] at h
    | jdict d => simp [optEqStr] at h

theorem fillSummary_from (plan : List JVal) (acc : DebloatSummary)
    (h : ∀ item ∈ plan, summarySafeItem item = true) :
    plan.foldlM fillSummaryStep acc = .ok
      { disabled_services := acc.disabled_services ++ disabledIds plan
        removed_apps := acc.removed_apps ++ removedIds plan
        errors := acc.errors } := by
  induction plan generalizing acc with
  | nil =>
    simp only [List.foldlM_nil, disabledIds, removedIds, List.filterMap_nil,
      List.append_nil]
    rfl
  | cons item rest ih =>
    have hsafe := h item (List.mem_cons_self _ _)
    have hrest : ∀ x ∈ rest, summarySafeItem x = true :=
      fun x hx => h x (List.mem_cons_of_mem _ hx)
    cases item with
    | jdict kvs =>
      by_cases hds : isDisableServiceItem (.jdict kvs) = true
      · have hkey : hasKey kvs "id" = true := by
          simpa [summarySafeItem, hds] using hsafe
        have hra : isRemoveAppItem (.jdict kvs) = false := disable_remove_exclusive _ hds
        cases hid : dictGet kvs "id" with
        | none => simp [hasKey, hid] at hkey
        | some idv =>
          have hstep : fillSummaryStep acc (.jdict kvs) =
              .ok { acc with disabled_services := acc.disabled_services ++ [idv] } := by
            simp [fillSummaryStep, hds, hid]
          simp only [List.foldlM_cons, hstep, bind, Except.bind]
          rw [ih _ hrest]
          simp [disabledIds, removedIds, List.filterMap_cons, hds, hra, jvalGet, hid]
      · by_cases hra : isRemoveAppItem (.jdict kvs) = true
        · have hkey : hasKey kvs "id" = true := by
            simpa [summarySafeItem, hra] using hsafe
          cases hid : dictGet kvs "id" with
          | none => simp [hasKey, hid] at hkey
          | some idv =>
            have hstep : fillSummaryStep acc (.jdict kvs) =
                .ok { acc with removed_apps := acc.removed_apps ++ [idv] } := by
              simp [fillSummaryStep, hds, hra, hid]
            simp only [List.foldlM_cons, hstep, bind, Except.bind]
            rw [ih _ hrest]
            simp [disabledIds, removedIds, List.filterMap_cons, hds, hra, jvalGet, hid]
        · have hstep : fillSummaryStep acc (.jdict kvs) = .ok acc := by
            simp [fillSummaryStep, hds, hra]
          simp only [List.foldlM_cons, hstep, bind, Except.bind]
          rw [ih _ hrest]
          simp [disabledIds, removedIds, List.filterMap_cons, hds, hra]
    | jnull => simp [summarySafeItem] at hsafe
    | jbool b => simp [summarySafeItem] at hsafe
    | jnum n => simp [summarySafeItem] at hsafe
    | jstr s => simp [summarySafeItem] at hsafe
    | jlist l => simp [summarySafeItem] at hsafe

/-- C10: execution of a batched plan is all-or-nothing on the single script
run — one OS invocation for the whole plan; exit code 0 reports every
disable-service item in `disabled_services` and every remove-app item in
`removed_apps` with an empty `errors` list, irrespective of per-command
outcomes inside the script (suppressed by `SilentlyContinue`); a non-zero
exit code leaves both success lists empty and puts exactly one entry in
`errors`. -/
theorem c10_all_or_nothing (runCmd : String → CmdResult) (plan : List JVal)
    (script_lines : List String)
    (hgen : generate_powershell_script plan = .ok script_lines)
    (hne : script_lines ≠ [])
    (hsafe : ∀ item ∈ plan, summarySafeItem item = true) :
    (execute_action_plan runCmd plan).invocations = [buildScript script_lines] ∧
    ((runCmd (buildScript script_lines)).exitCode = 0 →
      (execute_action_plan runCmd plan).summary = .ok
        { disabled_services := disabledIds plan
          removed_apps := removedIds plan
          errors := [] }) ∧
    ((runCmd (buildScript script_lines)).exitCode ≠ 0 →
      (execute_action_plan runCmd plan).summary = .ok
        { disabled_services := []
          removed_apps := []
          errors := [scriptErrMsg (runCmd (buildScript script_lines)).stderr] }) := by
  refine ⟨c2_single_batched_invocation runCmd plan script_lines hgen hne, ?_, ?_⟩
  · intro hexit
    cases script_lines with
    | nil => exact absurd rfl hne
    | cons l ls =>
      have hfill : fillSummary plan = .ok
          { disabled_services := disabledIds plan
            removed_apps := removedIds plan
            errors := [] } := by
        have := fillSummary_from plan emptySummary hsafe
        simpa [fillSummary, emptySummary] using this
      simp [execute_action_plan, hgen, hexit, hfill]
  · intro hexit
    cases script_lines with
    | nil => exact absurd rfl hne
    | cons l ls =>
      have hb : ((runCmd (buildScript (l :: ls))).exitCode != 0) = true := by
        simpa using hexit
      simp [execute_action_plan, hgen, hb, emptySummary]

/-- Witness for C10 at a concrete one-item plan and an exit-0 facade. -/
theorem c10_witness :
    (execute_action_plan (fun _ => ⟨0, "", ""⟩) [exampleActionItem]).invocations =
        [buildScript (disableServiceLines (.jstr "SomeSvc"))] ∧
    (execute_action_plan (fun _ => ⟨0, "", ""⟩) [exampleActionItem]).summary = .ok
        { disabled_services := disabledIds [exampleActionItem]
          removed_apps := removedIds [exampleActionItem]
          errors := [] } := by
  have h := c10_all_or_nothing (fun _ => ⟨0, "", ""⟩) [exampleActionItem]
    (disableServiceLines (.jstr "SomeSvc")) rfl
    (by simp [disableServiceLines]) (by intro item hmem; fin_cases hmem; rfl)
  exact ⟨h.1, h.2.1 rfl⟩

/-- C3 (amended): when `create_restore_point` raises — the spawn itself
fails, or the command exits non-zero with stderr carrying a recognized
could-not-create message — the pipeline run fails immediately: the trace
holds only the initial progress call and the restore-point command, so no
cleanup, no action execution and no report generation happen. -/
theorem c3_restore_failure_aborts (env : OrchEnv)
    (h : create_restore_point env.restoreSpawn = .error ()) :
    run_autonomous_optimization env =
      (.failed, [.progress 5 "Создание точки восстановления...", .restorePointCmd]) := by
  simp only [run_autonomous_optimization, h]

/-- A pipeline environment in which every stage succeeds but the
restore-point command exits with code 1 and unrecognized (empty) stderr. -/
def exampleEnvExitOne : OrchEnv :=
  { restoreSpawn := .ok ⟨1, "", ""⟩
    cancelPolls := []
    profileResult := .ok ["Developer"]
    collectResult := .ok ()
    planResult := .ok (.jdict [("action_plan", .jlist []), ("cleanup_plan", .jdict [])])
    cleanupResult := .ok ()
    scriptRun := fun _ => ⟨0, "", ""⟩
    reportResult := .ok "Отчет" }

/-- Counterexample to C3 as stated: the OS facade reports an error for the
restore-point command (exit code 1), yet the run does not abort — it
completes, and the destructive cleanup stage runs. -/
theorem c3_counterexample :
    (run_autonomous_optimization exampleEnvExitOne).1 = .completed "Отчет" ∧
    StageEffect.cleanupRun ∈ (run_autonomous_optimization exampleEnvExitOne).2 := by
  constructor
  · rfl
  · decide

/-- The environment of `exampleEnvExitOne` with a failing restore-point
spawn. -/
def exampleEnvSpawnFail : OrchEnv :=
  { exampleEnvExitOne with restoreSpawn := .error () }

/-- Witness for the amended C3 statement: a recognized restore-point failure
stops the run with nothing but the initial progress call and the restore
command in the trace. -/
theorem c3_witness :
    run_autonomous_optimization exampleEnvSpawnFail =
      (.failed, [.progress 5 "Создание точки восстановления...", .restorePointCmd]) :=
  c3_restore_failure_aborts exampleEnvSpawnFail rfl

theorem progressPercents_append (a b : List StageEffect) :
    progressPercents (a ++ b) = progressPercents a ++ progressPercents b := by
  simp [progressPercents, List.filterMap_append]

theorem exec_events_percents (runCmd : String → CmdResult) (plan : List JVal) :
    (execute_action_plan runCmd plan).events.map Prod.fst = [85] ∨
    (execute_action_plan runCmd plan).events.map Prod.fst = [75] ∨
    (execute_action_plan runCmd plan).events.map Prod.fst = [75, 85] ∨
    (execute_action_plan runCmd plan).events.map Prod.fst = [] := by
  unfold execute_action_plan
  cases hg : generate_powershell_script plan with
  | error e => right; right; right; rfl
  | ok ls =>
    cases ls with
    | nil => left; rfl
    | cons l rest =>
      by_cases hx : ((runCmd (buildScript (l :: rest))).exitCode != 0) = true
      · right; right; left; simp [hx]
      · simp only [hx, Bool.false_eq_true, if_false]
        cases fillSummary plan with
        | error e => right; left; simp
        | ok s => right; right; left; simp

theorem progressPercents_of_events (evs : List (Nat × String)) :
    progressPercents (evs.map (fun pm => StageEffect.progress pm.1 pm.2)) =
      evs.map Prod.fst := by
  induction evs with
  | nil => rfl
  | cons e es ih =>
    simp only [progressPercents, List.map_cons, List.filterMap_cons] at ih ⊢
    rw [ih]

theorem progressPercents_of_scripts (ss : List String) :
    progressPercents (ss.map (fun s => StageEffect.runScript s)) = [] := by
  induction ss with
  | nil => rfl
  | cons x xs ih =>
    simp only [progressPercents, List.map_cons, List.filterMap_cons] at ih ⊢
    exact ih

theorem actionStageTrace_percents (env : OrchEnv) (ap : List JVal) :
    progressPercents (actionStageTrace env ap) = [85] ∨
    progressPercents (actionStageTrace env ap) = [75] ∨
    progressPercents (actionStageTrace env ap) = [75, 85] ∨
    progressPercents (actionStageTrace env ap) = [] := by
  unfold actionStageTrace
  by_cases he : ap.isEmpty = true
  · right; right; right; simp [he, progressPercents]
  · simp only [he, Bool.false_eq_true, if_false]
    rw [progressPercents_append, progressPercents_of_events, progressPercents_of_scripts,
      List.append_nil]
    exact exec_events_percents env.scriptRun ap

theorem c9_chain (env : OrchEnv) :
    List.Chain' (· ≤ ·) (progressPercents (run_autonomous_optimization env).2) := by
  unfold run_autonomous_optimization
  cases hrp : create_restore_point env.restoreSpawn with
  | error e => simp [progressPercents]
  | ok u =>
    by_cases hp0 : pollCancel env 0 = true
    · simp [hp0, progressPercents]
    · simp only [hp0, Bool.false_eq_true, if_false]
      cases hpr : env.profileResult with
      | error e => simp [progressPercents]
      | ok user_profile =>
        by_cases hp1 : pollCancel env 1 = true
        · simp [hp1, progressPercents]
        · simp only [hp1, Bool.false_eq_true, if_false]
          cases hco : env.collectResult with
          | error e => simp [progressPercents]
          | ok u2 =>
            by_cases hp2 : pollCancel env 2 = true
            · simp [hp2, progressPercents]
            · simp only [hp2, Bool.false_eq_true, if_false]
              cases hpl : env.planResult with
              | error e => simp [progressPercents]
              | ok aiPlan =>
                by_cases hp3 : pollCancel env 3 = true
                · simp [hp3, progressPercents]
                · simp only [hp3, Bool.false_eq_true, if_false]
                  obtain hA | hA | hA | hA :=
                    actionStageTrace_percents env (getActionList aiPlan) <;>
                  simp only [progressPercents] at hA <;>
                  · by_cases hgf : ((match env.cleanupResult with
                        | .error _ => true | .ok _ => false) ||
                        actionStageFailed env (getActionList aiPlan)) = true
                    · simp only [hgf, if_true]
                      simp [progressPercents_append, progressPercents, hA]
                    · simp only [hgf, Bool.false_eq_true, if_false]
                      by_cases hp4 : pollCancel env 4 = true
                      · simp only [hp4, if_true]
                        simp [progressPercents_append, progressPercents, hA]
                      · simp only [hp4, Bool.false_eq_true, if_false]
                        cases hrep : env.reportResult with
                        | error e =>
                          simp [progressPercents_append, progressPercents, hA]
                        | ok final_report =>
                          simp [progressPercents_append, progressPercents, hA]

theorem c9_completed_ends_100 (env : OrchEnv) (r : String)
    (h : (run_autonomous_optimization env).1 = .completed r) :
    (progressPercents (run_autonomous_optimization env).2).getLast? = some 100 := by
  unfold run_autonomous_optimization at h ⊢
  cases hrp : create_restore_point env.restoreSpawn with
  | error e => rw [hrp] at h; simp at h
  | ok u =>
    rw [hrp] at h
    by_cases hp0 : pollCancel env 0 = true
    · simp [hp0] at h
    · simp only [hp0, Bool.false_eq_true, if_false] at h ⊢
      cases hpr : env.profileResult with
      | error e => rw [hpr] at h; simp at h
      | ok user_profile =>
        rw [hpr] at h
        by_cases hp1 : pollCancel env 1 = true
        · simp [hp1] at h
        · simp only [hp1, Bool.false_eq_true, if_false] at h ⊢
          cases hco : env.collectResult with
          | error e => rw [hco] at h; simp at h
          | ok u2 =>
            rw [hco] at h
            by_cases hp2 : pollCancel env 2 = true
            · simp [hp2] at h
            · simp only [hp2, Bool.false_eq_true, if_false] at h ⊢
              cases hpl : env.planResult with
              | error e => rw [hpl] at h; simp at h
              | ok aiPlan =>
                rw [hpl] at h
                by_cases hp3 : pollCancel env 3 = true
                · simp [hp3] at h
                · simp only [hp3, Bool.false_eq_true, if_false] at h ⊢
                  by_cases hgf : ((match env.cleanupResult with
                      | .error _ => true | .ok _ => false) ||
                      actionStageFailed env (getActionList aiPlan)) = true
                  · simp [hgf] at h
                  · simp only [hgf, Bool.false_eq_true, if_false] at h ⊢
                    by_cases hp4 : pollCancel env 4 = true
                    · simp [hp4] at h
                    · simp only [hp4, Bool.false_eq_true, if_false] at h ⊢
                      cases hrep : env.reportResult with
                      | error e => rw [hrep] at h; simp at h
                      | ok final_report =>
                        obtain hA | hA | hA | hA :=
                          actionStageTrace_percents env (getActionList aiPlan) <;>
                        simp only [progressPercents] at hA <;>
                        simp [progressPercents_append, progressPercents, hA]

/-- C9: within one pipeline run, the percent values passed to the progress
callback — by the orchestrator and by the execution stage it delegates to —
never decrease, and a run that completes successfully ends at 100. -/
theorem c9_progress_monotone (env : OrchEnv) :
    List.Chain' (· ≤ ·) (progressPercents (run_autonomous_optimization env).2) ∧
    (∀ r, (run_autonomous_optimization env).1 = .completed r →
      (progressPercents (run_autonomous_optimization env).2).getLast? = some 100) :=
  ⟨c9_chain env, fun r h => c9_completed_ends_100 env r h⟩

/-- An all-success pipeline environment with a one-item action plan. -/
def exampleEnvSuccess : OrchEnv :=
  { restoreSpawn := .ok ⟨0, "", ""⟩
    cancelPolls := []
    profileResult := .ok ["Developer"]
    collectResult := .ok ()
    planResult := .ok (.jdict [("action_plan", .jlist [exampleActionItem]),
                               ("cleanup_plan", .jdict [])])
    cleanupResult := .ok ()
    scriptRun := fun _ => ⟨0, "", ""⟩
    reportResult := .ok "Отчет" }

/-- Witness for C9 at a concrete successful run. -/
theorem c9_witness :
    List.Chain' (· ≤ ·)
      (progressPercents (run_autonomous_optimization exampleEnvSuccess).2) ∧
    (progressPercents (run_autonomous_optimization exampleEnvSuccess).2).getLast? =
      some 100 :=
  ⟨(c9_progress_monotone exampleEnvSuccess).1,
   (c9_progress_monotone exampleEnvSuccess).2 "Отчет" rfl⟩

theorem sweepEntry_dir_shape (n : String) (cs : List FSTree) :
    (sweepEntry (.dir n cs)).1 = none ∨
    (sweepEntry (.dir n cs)).1 = some (.dir n (sweepChildren cs).1) := by
  unfold sweepEntry
  by_cases h1 : pyToLower n ∈ PROTECTED_SYSTEM_FOLDERS
  · right; simp [h1]
  · by_cases h2 : is_dir_effectively_empty (sweepChildren cs).1 = true
    · left; simp [h1, h2]
    · right; simp [h1, h2]

theorem sweepEntry_some_inv (c c' : FSTree) (h : (sweepEntry c).1 = some c') :
    (∃ n, c = .file n ∧ c' = .file n) ∨
    (∃ n cs, c = .dir n cs ∧ c' = .dir n (sweepChildren cs).1) := by
  cases c with
  | file n =>
    left
    refine ⟨n, rfl, ?_⟩
    simp only [sweepEntry] at h
    injection h with h'
    exact h'.symm
  | dir n cs =>
    right
    obtain h1 | h1 := sweepEntry_dir_shape n cs
    · rw [h1] at h; cases h
    · rw [h1] at h
      injection h with h'
      exact ⟨n, cs, rfl, h'.symm⟩

theorem sweepChildren_mem (cs : List FSTree) (c' : FSTree)
    (h : c' ∈ (sweepChildren cs).1) :
    ∃ c ∈ cs, (sweepEntry c).1 = some c' := by
  induction cs with
  | nil => simp [sweepChildren] at h
  | cons t ts ih =>
    simp only [sweepChildren] at h
    cases hs : (sweepEntry t).1 with
    | none =>
      rw [hs] at h
      obtain ⟨c, hc, he⟩ := ih h
      exact ⟨c, List.mem_cons_of_mem _ hc, he⟩
    | some t2 =>
      rw [hs] at h
      cases h with
      | head => exact ⟨t, List.mem_cons_self _ _, hs⟩
      | tail _ h' =>
        obtain ⟨c, hc, he⟩ := ih h'
        exact ⟨c, List.mem_cons_of_mem _ hc, he⟩

theorem noMarkerDirsList_mem (ts : List FSTree) (h : noMarkerDirsList ts = true)
    (t : FSTree) (ht : t ∈ ts) : noMarkerDirs t = true := by
  induction ts with
  | nil => cases ht
  | cons x xs ih =>
    simp only [noMarkerDirsList, Bool.and_eq_true] at h
    cases ht with
    | head => exact h.1
    | tail _ ht' => exact ih h.2 ht'

theorem protectedDirCountList_eq_zero (ts : List FSTree)
    (h : ∀ t ∈ ts, protectedDirCount t = 0) : protectedDirCountList ts = 0 := by
  induction ts with
  | nil => rfl
  | cons x xs ih =>
    simp only [protectedDirCountList]
    rw [h x (List.mem_cons_self _ _), ih (fun t ht => h t (List.mem_cons_of_mem _ ht))]

mutual
/-- On a tree with no marker-named directories, a sweep visit deletes no
protected-named directory: the count of protected directories is
preserved. -/
theorem sweepEntry_preserves_protected (t : FSTree) (h : noMarkerDirs t = true) :
    protectedDirCountOpt (sweepEntry t).1 = protectedDirCount t := by
  cases t with
  | file n => rfl
  | dir n cs =>
    have hparts : (!(IGNORED_FILES_ON_EMPTY_CHECK.contains (pyToLower n)) &&
        noMarkerDirsList cs) = true := h
    have hcs : noMarkerDirsList cs = true := (Bool.and_eq_true_iff.mp hparts).2
    have hrec := sweepChildren_preserve_protected cs hcs
    by_cases h1 : pyToLower n ∈ PROTECTED_SYSTEM_FOLDERS
    · simp only [sweepEntry]
      rw [if_pos (by simpa using h1)]
      simp only [protectedDirCountOpt, protectedDirCount]
      rw [hrec]
    · by_cases h2 : is_dir_effectively_empty (sweepChildren cs).1 = true
      · have hz : protectedDirCountList (sweepChildren cs).1 = 0 := by
          apply protectedDirCountList_eq_zero
          intro c' hc'
          have hign : IGNORED_FILES_ON_EMPTY_CHECK.contains (pyToLower (fsName c')) = true := by
            have := (List.all_eq_true.mp h2) c' hc'
            simpa using this
          obtain ⟨c, hc, he⟩ := sweepChildren_mem cs c' hc'
          obtain ⟨m, hcf, hcf'⟩ | ⟨m, cs', hcd, hcd'⟩ := sweepEntry_some_inv c c' he
          · rw [hcf']; rfl
          · exfalso
            have hnm := noMarkerDirsList_mem cs hcs c hc
            rw [hcd] at hnm
            have hand : (!(IGNORED_FILES_ON_EMPTY_CHECK.contains (pyToLower m)) &&
                noMarkerDirsList cs') = true := hnm
            have hnot := (Bool.and_eq_true_iff.mp hand).1
            rw [hcd'] at hign
            simp only [fsName] at hign
            rw [hign] at hnot
            cases hnot
        simp only [sweepEntry]
        rw [if_neg (by simpa using h1), if_pos h2]
        simp only [protectedDirCountOpt, protectedDirCount]
        rw [if_neg (by simpa using h1)]
        rw [hz] at hrec
        rw [← hrec]
      · simp only [sweepEntry]
        rw [if_neg (by simpa using h1), if_neg h2]
        simp only [protectedDirCountOpt, protectedDirCount]
        rw [hrec]

/-- List version of `sweepEntry_preserves_protected`. -/
theorem sweepChildren_preserve_protected (ts : List FSTree)
    (h : noMarkerDirsList ts = true) :
    protectedDirCountList (sweepChildren ts).1 = protectedDirCountList ts := by
  cases ts with
  | nil => rfl
  | cons t ts' =>
    have hparts : (noMarkerDirs t && noMarkerDirsList ts') = true := h
    have h1 := (Bool.and_eq_true_iff.mp hparts).1
    have h2 := (Bool.and_eq_true_iff.mp hparts).2
    have he := sweepEntry_preserves_protected t h1
    have hts := sweepChildren_preserve_protected ts' h2
    simp only [sweepChildren]
    cases hs : (sweepEntry t).1 with
    | none =>
      rw [hs] at he
      simp only [protectedDirCountOpt] at he
      simp only [protectedDirCountList]
      rw [hts, ← he]
      omega
    | some t2 =>
      rw [hs] at he
      simp only [protectedDirCountOpt] at he
      simp only [protectedDirCountList]
      rw [hts, he]
end

/-- C5 (amended): the session-wide empty-folder reclamation
(`_process_empty_folder_cleanup`) removes no directory whose name is in the
protected list, provided no directory bears an ignorable-marker name
(`thumbs.db`/`desktop.ini`, whose presence as a directory name makes an
enclosing folder count as effectively empty and be bulk-removed with its
contents); the per-category pass (`_cleanup_empty_dirs`) consults no
protected list and can remove an empty protected-named directory. -/
theorem c5_session_pass_preserves_protected (root : FSTree)
    (h : noMarkerDirs root = true) :
    protectedDirCount (process_empty_folder_cleanup root).1 = protectedDirCount root := by
  cases root with
  | file n => rfl
  | dir n cs =>
    have hparts : (!(IGNORED_FILES_ON_EMPTY_CHECK.contains (pyToLower n)) &&
        noMarkerDirsList cs) = true := h
    have hcs : noMarkerDirsList cs = true := (Bool.and_eq_true_iff.mp hparts).2
    simp only [process_empty_folder_cleanup, protectedDirCount]
    rw [sweepChildren_preserve_protected cs hcs]

/-- Counterexample to C5 as stated: `_cleanup_empty_dirs` — the per-category
post-deletion empty-directory pass — removes an empty directory named
`cookies` even though that name is in `PROTECTED_SYSTEM_FOLDERS`. -/
theorem c5_counterexample :
    pyToLower "cookies" ∈ PROTECTED_SYSTEM_FOLDERS ∧
    cleanup_empty_dirs (.dir "AppData" [.dir "cookies" []]) ["cookies"] =
      (.dir "AppData" [], 1) := by
  constructor
  · decide
  · simp [cleanup_empty_dirs, getNode, removeNode, fsName, List.find?, List.filter]

/-- A marker-free tree with one protected directory, one deletable empty
directory and one regular file. -/
def exampleTree : FSTree :=
  .dir "LOCALAPPDATA"
    [.dir "windows" [.file "keep.txt"], .dir "oldcache" [], .file "data.bin"]

/-- Witness for C5's amended statement at a concrete tree. -/
theorem c5_witness :
    noMarkerDirs exampleTree = true ∧
    protectedDirCount (process_empty_folder_cleanup exampleTree).1 =
      protectedDirCount exampleTree :=
  ⟨rfl, c5_session_pass_preserves_protected exampleTree rfl⟩
